import Mathlib

/-!
Verification development for `libc-include/stddef.h`, the freestanding
definitions header of the repository.  Its lines, by source line number:

     1   ifndef _STDDEF_H
     2   define _STDDEF_H
     5   define NULL ((void*)0)
     6   define offsetof(type, member) ((size_t)&(((type*)0)->member))
     8   typedef long ptrdiff_t;
     9   typedef unsigned long size_t;
    10   typedef int wchar_t;
    13   endif

The header has no run-time code.  What it defines gets its meaning from the C
language, so the development has two levels:

* the value level: C object types, a target description (sizes and alignments),
  structure layout, pointer values, and the definitions `NULL` and `offsetof`
  as functions over those;
* the translation level: the header as a list of lines, processed over the
  state of a translation unit (names bound by a definition directive, declared
  identifiers, emitted declaration lines, diagnostics).
-/

namespace Stddef

/-! ## C object types and targets -/

/-- Integer ranks of the C integer types the header and its users mention. -/
inductive IntKind where
  | char
  | short
  | int
  | long
  | llong
deriving DecidableEq, Repr

mutual
/-- C object types: `void`, the integer types, pointers, arrays and structures. -/
inductive CType where
  | void
  | int (signed : Bool) (k : IntKind)
  | ptr (t : CType)
  | array (t : CType) (n : Nat)
  | struct (fs : Fields)
deriving DecidableEq, Repr
/-- Member lists of structures, in declaration order. -/
inductive Fields where
  | nil
  | cons (name : String) (t : CType) (rest : Fields)
deriving DecidableEq, Repr
end

/-- A target configuration: bits per byte, the size and alignment in bytes of
each integer rank and of pointers, and the largest code value of the target's
extended character set. -/
structure Target where
  charBit : Nat
  shortBytes : Nat
  intBytes : Nat
  longBytes : Nat
  llongBytes : Nat
  ptrBytes : Nat
  shortAlign : Nat
  intAlign : Nat
  longAlign : Nat
  llongAlign : Nat
  ptrAlign : Nat
  extCharMax : Nat
deriving DecidableEq, Repr

/-- Size in bytes of an integer rank; `char` is one byte by definition. -/
def Target.bytes (t : Target) : IntKind → Nat
  | .char => 1
  | .short => t.shortBytes
  | .int => t.intBytes
  | .long => t.longBytes
  | .llong => t.llongBytes

/-- Alignment in bytes of an integer rank. -/
def Target.align (t : Target) : IntKind → Nat
  | .char => 1
  | .short => t.shortAlign
  | .int => t.intAlign
  | .long => t.longAlign
  | .llong => t.llongAlign

/-- The minimum requirements C places on a target: at least 8 bits per byte,
`short` and `int` at least 16 bits, `long` at least 32, `long long` at least
64, and positive pointer size and alignments. -/
def Target.WF (t : Target) : Prop :=
  8 ≤ t.charBit ∧ 16 ≤ t.charBit * t.shortBytes ∧ 16 ≤ t.charBit * t.intBytes ∧
  32 ≤ t.charBit * t.longBytes ∧ 64 ≤ t.charBit * t.llongBytes ∧ 0 < t.ptrBytes ∧
  0 < t.shortAlign ∧ 0 < t.intAlign ∧ 0 < t.longAlign ∧ 0 < t.llongAlign ∧ 0 < t.ptrAlign

instance (t : Target) : Decidable t.WF := by
  unfold Target.WF
  infer_instance

/-- The LP64 data model (64-bit Unix): `long` and pointers are 8 bytes. -/
def lp64 : Target :=
  { charBit := 8, shortBytes := 2, intBytes := 4, longBytes := 8, llongBytes := 8, ptrBytes := 8,
    shortAlign := 2, intAlign := 4, longAlign := 8, llongAlign := 8, ptrAlign := 8,
    extCharMax := 0x10FFFF }

/-- The ILP32 data model: `int`, `long` and pointers are 4 bytes. -/
def ilp32 : Target :=
  { charBit := 8, shortBytes := 2, intBytes := 4, longBytes := 4, llongBytes := 8, ptrBytes := 4,
    shortAlign := 2, intAlign := 4, longAlign := 4, llongAlign := 8, ptrAlign := 4,
    extCharMax := 0x10FFFF }

/-- The LLP64 data model (64-bit Windows): pointers are 8 bytes, `long` is 4. -/
def llp64 : Target :=
  { charBit := 8, shortBytes := 2, intBytes := 4, longBytes := 4, llongBytes := 8, ptrBytes := 8,
    shortAlign := 2, intAlign := 4, longAlign := 4, llongAlign := 8, ptrAlign := 8,
    extCharMax := 0x10FFFF }

/-- A 16-bit target (`int` and pointers 2 bytes, `long` 4 bytes) whose extended
character set is Unicode. -/
def ip16 : Target :=
  { charBit := 8, shortBytes := 2, intBytes := 2, longBytes := 4, llongBytes := 8, ptrBytes := 2,
    shortAlign := 2, intAlign := 2, longAlign := 2, llongAlign := 2, ptrAlign := 2,
    extCharMax := 0x10FFFF }

/-! ## Structure layout -/

/-- Round `off` up to the next multiple of the alignment `a`. -/
def alignUp (off a : Nat) : Nat := (off + a - 1) / a * a

mutual
/-- The `sizeof` of a type on a target.  A structure's size is the end of its
last member rounded up to the structure's alignment; `void` counts one byte, as
in GNU C. -/
def sizeof (t : Target) : CType → Nat
  | .void => 1
  | .int _ k => t.bytes k
  | .ptr _ => t.ptrBytes
  | .array e n => n * sizeof t e
  | .struct fs => alignUp (endOf t fs 0) (maxAlign t fs)
/-- The alignment of a type on a target. -/
def alignof (t : Target) : CType → Nat
  | .void => 1
  | .int _ k => t.align k
  | .ptr _ => t.ptrAlign
  | .array e _ => alignof t e
  | .struct fs => maxAlign t fs
/-- The offset just past the last member, laying the members out from `off`:
each member is placed at the next multiple of its alignment. -/
def endOf (t : Target) : Fields → Nat → Nat
  | .nil, off => off
  | .cons _ ty rest, off => endOf t rest (alignUp off (alignof t ty) + sizeof t ty)
/-- The strictest alignment among the members. -/
def maxAlign (t : Target) : Fields → Nat
  | .nil => 1
  | .cons _ ty rest => max (alignof t ty) (maxAlign t rest)
end

/-- Width in bits of a type on a target. -/
def bitWidth (t : Target) (ty : CType) : Nat := t.charBit * sizeof t ty

/-- The offset and type of the member named `f`, laying the members out from
`off`. -/
def findField (t : Target) : Fields → String → Nat → Option (Nat × CType)
  | .nil, _, _ => none
  | .cons n ty rest, f, off =>
      if n = f then some (alignUp off (alignof t ty), ty)
      else findField t rest f (alignUp off (alignof t ty) + sizeof t ty)

/-- One step of a member designator: `.name` or `[i]`. -/
inductive Step where
  | field (name : String)
  | index (i : Nat)
deriving DecidableEq, Repr

/-- A member designator such as `c.d` or `m[3]`: the steps from left to right. -/
abbrev Designator := List Step

/-- The byte offset and the type reached by following a designator from the
start of an object of the given type. -/
def resolve (t : Target) : Designator → CType → Option (Nat × CType)
  | [], ty => some (0, ty)
  | .field f :: rest, .struct fs =>
      match findField t fs f 0 with
      | some (o, fty) => (resolve t rest fty).map (fun r => (o + r.1, r.2))
      | none => none
  | .index i :: rest, .array e _ =>
      (resolve t rest e).map (fun r => (i * sizeof t e + r.1, r.2))
  | _, _ => none

/-! ## Pointer values -/

/-- Pointer values of the C abstract machine: an absolute address obtained from
an integer (`(T*)0` is `abs 0`), or a pointer `ofs` bytes into the allocated
object `block`. -/
inductive Val where
  | abs (addr : Nat)
  | obj (block : Nat) (ofs : Nat)
deriving DecidableEq, Repr

/-- The allocated objects of a program state: block identifier and size. -/
abbrev Mem := List (Nat × Nat)

/-- The size of an allocated block, if the block is allocated. -/
def Mem.sizeOfBlock : Mem → Nat → Option Nat
  | [], _ => none
  | (b, n) :: rest, k => if b = k then some n else Mem.sizeOfBlock rest k

/-- A pointer into an object is valid when its block is allocated and the
offset lies within the object or one past its end. -/
def Mem.valid (m : Mem) (b ofs : Nat) : Bool :=
  match m.sizeOfBlock b with
  | some n => decide (ofs ≤ n)
  | none => false

/-- The cast `(T*)e` of an integer or pointer value to a pointer type: the
value is kept.  -/
def castToPtr (_pointee : CType) (v : Val) : Val := v

/-- Pointer displacement by `off` bytes. -/
def Val.addOffset : Val → Nat → Val
  | .abs a, off => .abs (a + off)
  | .obj b o, off => .obj b (o + off)

/-- The expression `&(p->member)` for a pointer `p` to `type`: the address of the
designated member.  The designator starts with a member name. -/
def memberAddr (t : Target) (type : CType) (p : Val) : Designator → Option Val
  | .field f :: rest => (resolve t (.field f :: rest) type).map (fun r => p.addOffset r.1)
  | _ => none

/-- The cast `(U)p` of a pointer to an unsigned integer type `U`: an absolute
address is reduced modulo `2 ^ width`; the integer value of a pointer into an
allocated object is not determined here. -/
def ptrToUInt (t : Target) (ty : CType) : Val → Option Nat
  | .abs a => some (a % 2 ^ bitWidth t ty)
  | .obj _ _ => none

/-- The byte distance from `p` to `q`, both in the same object (or both
absolute), `q` not before `p`. -/
def distance : Val → Val → Option Nat
  | .abs a, .abs a' => if a ≤ a' then some (a' - a) else none
  | .obj b o, .obj b' o' => if b = b' ∧ o ≤ o' then some (o' - o) else none
  | _, _ => none

/-- Equality comparison `p == q` of two pointers in memory `m`.  A pointer into
an allocated object never equals the zero address; comparing it with another
absolute address, or comparing pointers that are not valid, has no defined
result. -/
def ptrEq (m : Mem) : Val → Val → Option Bool
  | .abs a, .abs a' => some (decide (a = a'))
  | .obj b o, .obj b' o' =>
      if m.valid b o && m.valid b' o' then
        (if b = b' then some (decide (o = o')) else some false)
      else none
  | .abs a, .obj b o => if a = 0 ∧ m.valid b o then some false else none
  | .obj b o, .abs a => if a = 0 ∧ m.valid b o then some false else none

/-- The address `&x` of the allocated object `block`. -/
def addrOfObj (block : Nat) : Val := .obj block 0

/-! ## The header's definitions, value level -/

/-- The declaration `typedef long ptrdiff_t;`. -/
def ptrdiff_t : CType := .int true .long

/-- The declaration `typedef unsigned long size_t;`. -/
def size_t : CType := .int false .long

/-- The declaration `typedef int wchar_t;`. -/
def wchar_t : CType := .int true .int

/-- The definition `#define NULL ((void*)0)`. -/
def NULL : Val := castToPtr .void (.abs 0)

/-- The definition
`#define offsetof(type, member) ((size_t)&(((type*)0)->member))`. -/
def offsetof (t : Target) (type : CType) (member : Designator) : Option Nat :=
  (memberAddr t type (castToPtr type (.abs 0)) member).bind (ptrToUInt t size_t)

/-- Whether a type is a signed integer type. -/
def isSigned : CType → Bool
  | .int s _ => s
  | _ => false

/-- Whether a type is an unsigned integer type. -/
def isUnsigned : CType → Bool
  | .int s _ => !s
  | _ => false

/-- The least value of an integer type (two's complement for signed types). -/
def minOf (t : Target) (ty : CType) : Int :=
  if isSigned ty then -(2 ^ (bitWidth t ty - 1) : Int) else 0

/-- The greatest value of an integer type. -/
def maxOf (t : Target) (ty : CType) : Int :=
  if isSigned ty then (2 ^ (bitWidth t ty - 1) : Int) - 1 else (2 ^ bitWidth t ty : Int) - 1

/-- Whether the integer type can represent the value `v`. -/
def representable (t : Target) (ty : CType) (v : Int) : Prop :=
  minOf t ty ≤ v ∧ v ≤ maxOf t ty

instance (t : Target) (ty : CType) (v : Int) : Decidable (representable t ty v) := by
  unfold representable
  infer_instance

/-- The number of elements of the largest array of one-byte elements whose size
in bytes `size_t` can represent. -/
def maxArrayLen (t : Target) : Nat := 2 ^ bitWidth t size_t - 1

/-- The structure type `struct { char a; int b; }`. -/
def charInt : CType :=
  .struct (.cons "a" (.int true .char) (.cons "b" (.int true .int) .nil))

/-- The structure type `struct { char a[4294967296]; char b; }`. -/
def bigStruct : CType :=
  .struct (.cons "a" (.array (.int true .char) 4294967296) (.cons "b" (.int true .char) .nil))

/-! ## The header, translation level -/

/-- A `#define`: the parameter list (absent for an object-like definition) and
the replacement list, as preprocessing tokens. -/
structure Defn where
  params : Option (List String)
  body : List String
deriving DecidableEq, Repr

/-- What an ordinary identifier is declared as at file scope. -/
inductive Decl where
  | typedef (ty : CType)
  | object (ty : CType)
deriving DecidableEq, Repr

/-- Diagnostics of the translator. -/
inductive Diag where
  | redefined (name : String)
  | redeclared (name : String)
  | parseError (line : List String)
deriving DecidableEq, Repr

/-- The state of a translation unit: the names bound by `#define`, the declared
ordinary identifiers, the declaration lines emitted so far (after replacement
of defined names), and the diagnostics raised so far. -/
structure TU where
  defs : List (String × Defn)
  decls : List (String × Decl)
  out : List (List String)
  diags : List Diag
deriving DecidableEq, Repr

/-- A translation unit in which nothing has been processed yet. -/
def TU.empty : TU := { defs := [], decls := [], out := [], diags := [] }

/-- The most recent binding of a name in an association list. -/
def lookup {β : Type} (k : String) : List (String × β) → Option β
  | [] => none
  | (k', v) :: rest => if k' = k then some v else lookup k rest

/-- A line of a source file. -/
inductive Line where
  | ifndef (name : String)
  | define (name : String) (params : Option (List String)) (body : List String)
  | text (toks : List String)
  | endif
deriving DecidableEq, Repr

/-- The guard name of the header. -/
def _STDDEF_H : String := "_STDDEF_H"

/-- The replacement list of `NULL`: `((void*)0)`. -/
def nullBody : List String := ["(", "(", "void", "*", ")", "0", ")"]

/-- The replacement list of `offsetof`: `((size_t)&(((type*)0)->member))`. -/
def offsetofBody : List String :=
  ["(", "(", "size_t", ")", "&", "(", "(", "(", "type", "*", ")", "0", ")", "->", "member",
   ")", ")"]

/-- The three declaration lines of the header. -/
def declLines : List (List String) :=
  [["typedef", "long", "ptrdiff_t", ";"],
   ["typedef", "unsigned", "long", "size_t", ";"],
   ["typedef", "int", "wchar_t", ";"]]

/-- The file `libc-include/stddef.h`, line by line (blank lines dropped). -/
def stddef_h : List Line :=
  [ .ifndef _STDDEF_H,
    .define _STDDEF_H none [],
    .define "NULL" none nullBody,
    .define "offsetof" (some ["type", "member"]) offsetofBody,
    .text ["typedef", "long", "ptrdiff_t", ";"],
    .text ["typedef", "unsigned", "long", "size_t", ";"],
    .text ["typedef", "int", "wchar_t", ";"],
    .endif ]

/-- Whether a name is currently bound by `#define`. -/
def isDefined (name : String) (s : TU) : Bool := (lookup name s.defs).isSome

/-- Modelled from the spec: the translator's handling of `#define`, which is not
among the sources.  A name not yet defined is bound; a repeated definition
identical to the one in force changes nothing; a definition that differs from
the one in force raises a redefinition diagnostic and takes its place. -/
def define (name : String) (d : Defn) (s : TU) : TU :=
  match lookup name s.defs with
  | none => { s with defs := (name, d) :: s.defs }
  | some d' =>
      if d' = d then s
      else { s with defs := (name, d) :: s.defs, diags := s.diags ++ [.redefined name] }

/-- Modelled from the spec: the translator's handling of a `typedef` at file
scope, which is not among the sources.  An undeclared name is declared; a
repeated declaration as the same type changes nothing; a name already declared
as anything else raises a redefinition diagnostic and keeps its declaration. -/
def declareTypedef (name : String) (ty : CType) (s : TU) : TU :=
  match lookup name s.decls with
  | none => { s with decls := (name, .typedef ty) :: s.decls }
  | some d =>
      if d = .typedef ty then s
      else { s with diags := s.diags ++ [.redeclared name] }

/-- Replacement of one token: a name bound to an object-like definition is
replaced by its replacement list, which is rescanned with the name itself no
longer replaced.  A name bound to a function-like definition is replaced only
when an argument list follows; in declaration lines none does. -/
def expandTok (ds : List (String × Defn)) : Nat → List String → String → List String
  | 0, _, tok => [tok]
  | fuel + 1, hide, tok =>
      if tok ∈ hide then [tok]
      else
        match lookup tok ds with
        | some ⟨none, body⟩ => (body.map (expandTok ds fuel (tok :: hide))).flatten
        | _ => [tok]

/-- Replacement of defined names in a line of text. -/
def expand (ds : List (String × Defn)) (toks : List String) : List String :=
  (toks.map (expandTok ds (ds.length + 1) [])).flatten

/-- The type named by a list of type specifiers. -/
def parseSpecifiers : List String → Option CType
  | ["void"] => some .void
  | ["char"] => some (.int true .char)
  | ["signed", "char"] => some (.int true .char)
  | ["unsigned", "char"] => some (.int false .char)
  | ["short"] => some (.int true .short)
  | ["unsigned", "short"] => some (.int false .short)
  | ["int"] => some (.int true .int)
  | ["signed"] => some (.int true .int)
  | ["signed", "int"] => some (.int true .int)
  | ["unsigned"] => some (.int false .int)
  | ["unsigned", "int"] => some (.int false .int)
  | ["long"] => some (.int true .long)
  | ["long", "int"] => some (.int true .long)
  | ["unsigned", "long"] => some (.int false .long)
  | ["unsigned", "long", "int"] => some (.int false .long)
  | ["long", "long"] => some (.int true .llong)
  | ["unsigned", "long", "long"] => some (.int false .llong)
  | _ => none

/-- The words that cannot be used as a declared name. -/
def keywords : List String :=
  ["typedef", "void", "char", "short", "int", "long", "signed", "unsigned", "struct", "union",
   "enum", "float", "double", "const", "volatile", "static", "extern", "register", "auto"]

/-- Whether a token is an identifier that can be declared. -/
def isIdentifier (tok : String) : Bool :=
  match tok.data with
  | [] => false
  | c :: cs =>
      (c.isAlpha || c = '_') && cs.all (fun x => x.isAlphanum || x = '_') &&
        !(keywords.contains tok)

/-- A declaration line of the form `typedef specifiers name ;`: the declared
name and its type. -/
def parseTypedef : List String → Option (String × CType)
  | "typedef" :: rest =>
      match rest.reverse with
      | ";" :: name :: specs =>
          if isIdentifier name then (parseSpecifiers specs.reverse).map (fun ty => (name, ty))
          else none
      | _ => none
  | _ => none

/-- Modelled from the spec: the translator's handling of a line of text, which
is not among the sources.  Defined names are replaced, the line is emitted, and
the line is taken as a `typedef` declaration (the only form of declaration the
header contains); anything else is a parse error. -/
def processText (toks : List String) (s : TU) : TU :=
  match parseTypedef (expand s.defs toks) with
  | some (name, ty) => declareTypedef name ty { s with out := s.out ++ [expand s.defs toks] }
  | none =>
      { s with out := s.out ++ [expand s.defs toks],
               diags := s.diags ++ [.parseError (expand s.defs toks)] }

/-- Modelled from the spec: the translator's conditional inclusion, which is
not among the sources.  `skip` counts the enclosing conditionals whose group is
being skipped: `#ifndef` of a defined name starts skipping, and lines in a
skipped group have no effect. -/
def processLines : List Line → Nat → TU → TU
  | [], _, s => s
  | .ifndef n :: rest, 0, s =>
      if isDefined n s then processLines rest 1 s else processLines rest 0 s
  | .ifndef _ :: rest, skip + 1, s => processLines rest (skip + 2) s
  | .endif :: rest, 0, s => processLines rest 0 s
  | .endif :: rest, skip + 1, s => processLines rest skip s
  | .define n p b :: rest, 0, s => processLines rest 0 (define n ⟨p, b⟩ s)
  | .define _ _ _ :: rest, skip + 1, s => processLines rest (skip + 1) s
  | .text toks :: rest, 0, s => processLines rest 0 (processText toks s)
  | .text _ :: rest, skip + 1, s => processLines rest (skip + 1) s

/-- Processing `#include <stddef.h>` once. -/
def includeStddef (s : TU) : TU := processLines stddef_h 0 s

/-- Processing `#include <stddef.h>` `n` times in a row. -/
def includeN : Nat → TU → TU
  | 0, s => s
  | n + 1, s => includeN n (includeStddef s)

/-- The width in bits, on a target, of the type a name is declared a `typedef`
of in a translation unit. -/
def widthOf (t : Target) (s : TU) (name : String) : Option Nat :=
  match lookup name s.decls with
  | some (.typedef ty) => some (bitWidth t ty)
  | _ => none

/-- A translation unit in which another header has already taken the guard
name: `#define _STDDEF_H`. -/
def guardTaken : TU := { TU.empty with defs := [("_STDDEF_H", ⟨none, []⟩)] }

/-- A translation unit that starts with `typedef int NULL;`. -/
def typedefNull : TU := { TU.empty with decls := [("NULL", .typedef (.int true .int))] }

/-- A translation unit that starts with `#define size_t x`. -/
def sizeRenamed : TU := { TU.empty with defs := [("size_t", ⟨none, ["x"]⟩)] }

/-- A translation unit that starts with `#define NULL 0`. -/
def nullZero : TU := { TU.empty with defs := [("NULL", ⟨none, ["0"]⟩)] }

/-- The definition of `NULL` the header makes. -/
def hdrNull : Defn := ⟨none, nullBody⟩

/-- The definition of `offsetof` the header makes. -/
def hdrOffsetof : Defn := ⟨some ["type", "member"], offsetofBody⟩

/-- The tokens of the header's declaration lines. -/
def declTokens : List String :=
  ["typedef", "long", "unsigned", "int", "ptrdiff_t", "size_t", "wchar_t", ";"]

/-- A translation unit in which no token of the header's declaration lines is
bound by `#define`, so that replacement leaves those lines as written. -/
def plain (s : TU) : Prop := ∀ tok ∈ declTokens, lookup tok s.defs = none

instance (s : TU) : Decidable (plain s) := by
  unfold plain
  infer_instance

/-- The name is bound by `#define` to something other than `d`. -/
def defConflict (name : String) (d : Defn) (s : TU) : Bool :=
  match lookup name s.defs with
  | some d' => decide (d' ≠ d)
  | none => false

/-- The name is declared as something other than a `typedef` of `ty`. -/
def declConflict (name : String) (ty : CType) (s : TU) : Bool :=
  match lookup name s.decls with
  | some d => decide (d ≠ .typedef ty)
  | none => false

/-- The bindings a translation unit has for the header's five names, with the
declared types measured by their width on the target. -/
def bindings (t : Target) (s : TU) :
    Option Defn × Option Defn × Option Nat × Option Nat × Option Nat :=
  (lookup "NULL" s.defs, lookup "offsetof" s.defs, widthOf t s "ptrdiff_t",
   widthOf t s "size_t", widthOf t s "wchar_t")

/-- The bindings the header itself describes on a target. -/
def headerBindings (t : Target) :
    Option Defn × Option Defn × Option Nat × Option Nat × Option Nat :=
  (some hdrNull, some hdrOffsetof, some (bitWidth t ptrdiff_t), some (bitWidth t size_t),
   some (bitWidth t wchar_t))

/-- The redefinition diagnostics the header's five definitions raise against
the bindings a translation unit already has. -/
def conflictDiags (s : TU) : List Diag :=
  (if defConflict "NULL" hdrNull s then [Diag.redefined "NULL"] else []) ++
  ((if defConflict "offsetof" hdrOffsetof s then [Diag.redefined "offsetof"] else []) ++
  ((if declConflict "ptrdiff_t" ptrdiff_t s then [Diag.redeclared "ptrdiff_t"] else []) ++
  ((if declConflict "size_t" size_t s then [Diag.redeclared "size_t"] else []) ++
  (if declConflict "wchar_t" wchar_t s then [Diag.redeclared "wchar_t"] else []))))

/-- The structure type `struct { char x; char d; }`. -/
def innerPair : CType :=
  .struct (.cons "x" (.int true .char) (.cons "d" (.int true .char) .nil))

/-- The structure type `struct { int n; struct { char x; char d; } c; long m[4]; }`. -/
def outerRec : CType :=
  .struct (.cons "n" (.int true .int) (.cons "c" innerPair
    (.cons "m" (.array (.int true .long) 4) .nil)))

/-- The structure type
`struct { char pad[4294967295]; struct { char x; char d; } c; }`. -/
def bigOuter : CType :=
  .struct (.cons "pad" (.array (.int true .char) 4294967295) (.cons "c" innerPair .nil))

/-- The structure type `struct { char pad[4294967295]; char m[2]; }`. -/
def bigArr : CType :=
  .struct (.cons "pad" (.array (.int true .char) 4294967295)
    (.cons "m" (.array (.int true .char) 2) .nil))

/-! ## Value level: `offsetof`, `NULL` and the three types -/

theorem alignUp_zero (a : Nat) : alignUp 0 a = 0 := by
  unfold alignUp
  rcases Nat.eq_zero_or_pos a with h | h
  · simp [h]
  · have : (0 + a - 1) / a = 0 := Nat.div_eq_of_lt (by omega)
    rw [this, Nat.zero_mul]

theorem distance_addOffset (p : Val) (off : Nat) : distance p (p.addOffset off) = some off := by
  cases p <;> simp [distance, Val.addOffset]

theorem memberAddr_eq_some (t : Target) (type : CType) (p q : Val) (member : Designator)
    (h : memberAddr t type p member = some q) :
    ∃ r, resolve t member type = some r ∧ q = p.addOffset r.1 := by
  cases member with
  | nil => simp [memberAddr] at h
  | cons st rest =>
    cases st with
    | index i => simp [memberAddr] at h
    | field f =>
      simp only [memberAddr, Option.map_eq_some'] at h
      obtain ⟨r, hr, hq⟩ := h
      exact ⟨r, hr, hq.symm⟩

theorem offsetof_of_resolve (t : Target) (type : CType) (f : String) (rest : Designator)
    (r : Nat × CType) (h : resolve t (.field f :: rest) type = some r) :
    offsetof t type (.field f :: rest) = some (r.1 % 2 ^ bitWidth t size_t) := by
  simp [offsetof, memberAddr, h, castToPtr, Val.addOffset, ptrToUInt]

/-- C1, counterexample: on LLP64, where `unsigned long` is 4 bytes and pointers
are 8, member `b` of `struct { char a[4294967296]; char b; }` lies 4294967296
bytes from the start of an instance, and `offsetof` evaluates to 0. -/
theorem offsetof_truncates_llp64 :
    llp64.WF ∧
    memberAddr llp64 bigStruct (addrOfObj 1) [.field "b"] = some (.obj 1 4294967296) ∧
    distance (addrOfObj 1) (.obj 1 4294967296) = some 4294967296 ∧
    offsetof llp64 bigStruct [.field "b"] = some 0 := by
  decide

/-- C1, amended: whenever the byte distance `d` from the start of an instance
to the designated member (padding included) is below `2 ^ width(size_t)`,
`offsetof(type, member)` evaluates to `d`; the first member of every structure
has offset 0; and for `struct { char a; int b; }` on a target where `int` is
4-byte aligned, `offsetof` of `b` is 4 and not 1. -/
theorem offsetof_eq_distance (t : Target) (type : CType) (member : Designator) (p q : Val)
    (d : Nat) (hq : memberAddr t type p member = some q) (hd : distance p q = some d)
    (hfit : d < 2 ^ bitWidth t size_t) :
    offsetof t type member = some d ∧
    (∀ name ty rest, offsetof t (.struct (.cons name ty rest)) [.field name] = some 0) ∧
    (t.WF → t.intAlign = 4 →
      offsetof t charInt [.field "b"] = some 4 ∧ offsetof t charInt [.field "b"] ≠ some 1) := by
  refine ⟨?_, ?_, ?_⟩
  · obtain ⟨r, hr, rfl⟩ := memberAddr_eq_some t type p q member hq
    rw [distance_addOffset] at hd
    have hd' : r.1 = d := by simpa using hd
    cases member with
    | nil => simp [memberAddr] at hq
    | cons st rest =>
      cases st with
      | index i => simp [memberAddr] at hq
      | field f =>
        rw [offsetof_of_resolve t type f rest r hr, hd', Nat.mod_eq_of_lt hfit]
  · intro name ty rest
    have h : resolve t [.field name] (.struct (.cons name ty rest)) = some (0, ty) := by
      simp [resolve, findField, alignUp_zero]
    rw [offsetof_of_resolve t _ name [] _ h]
    simp
  · intro hwf h4
    have h : resolve t [.field "b"] charInt = some (4, .int true .int) := by
      simp [resolve, findField, charInt, alignUp_zero, alignof, sizeof, Target.align,
        Target.bytes, h4, alignUp]
    have hw : 4 < 2 ^ bitWidth t size_t := by
      have h32 : 32 ≤ bitWidth t size_t := hwf.2.2.2.1
      calc 4 < 2 ^ 32 := by norm_num
        _ ≤ 2 ^ bitWidth t size_t := Nat.pow_le_pow_right (by norm_num) h32
    rw [offsetof_of_resolve t _ "b" [] _ h]
    simp [Nat.mod_eq_of_lt hw]

/-- C1, witness: `struct { char a; int b; }` on LP64, instance in block 7. -/
theorem offsetof_eq_distance_witness :
    memberAddr lp64 charInt (addrOfObj 7) [.field "b"] = some (.obj 7 4) ∧
    distance (addrOfObj 7) (.obj 7 4) = some 4 ∧
    4 < 2 ^ bitWidth lp64 size_t ∧ lp64.WF ∧ lp64.intAlign = 4 ∧
    offsetof lp64 charInt [.field "b"] = some 4 ∧
    offsetof lp64 charInt [.field "a"] = some 0 ∧
    offsetof lp64 charInt [.field "b"] ≠ some 1 :=
  have h := offsetof_eq_distance lp64 charInt [.field "b"] (addrOfObj 7) (.obj 7 4) 4
    (by decide) (by decide) (by decide)
  ⟨by decide, by decide, by decide, by decide, rfl, h.1,
   h.2.1 "a" (.int true .char) (.cons "b" (.int true .int) .nil), (h.2.2 (by decide) rfl).2⟩

/-- C3, counterexample: on LLP64 `sizeof(size_t)` is 4 while pointers are 8
bytes wide. -/
theorem size_t_narrower_than_pointer_llp64 :
    llp64.WF ∧ sizeof llp64 size_t = 4 ∧ llp64.ptrBytes = 8 ∧
    sizeof llp64 size_t ≠ llp64.ptrBytes := by
  decide

/-- C3, amended: the header declares `size_t` as `unsigned long`, so on every
target `sizeof(size_t)` is the size of `long` and `size_t` is unsigned; it
equals the pointer width exactly on the targets whose `long` has the width of a
pointer. -/
theorem sizeof_size_t (t : Target) :
    sizeof t size_t = t.longBytes ∧ isUnsigned size_t = true ∧
    (sizeof t size_t = t.ptrBytes ↔ t.longBytes = t.ptrBytes) := by
  refine ⟨rfl, rfl, ?_⟩
  simp [size_t, sizeof, Target.bytes]

/-- C4: a pointer of any type assigned `NULL` compares equal to `NULL`, and the
address of every allocated object compares unequal to `NULL`. -/
theorem null_compare (pointee : CType) (m : Mem) (b n : Nat)
    (hb : m.sizeOfBlock b = some n) :
    ptrEq m (castToPtr pointee NULL) NULL = some true ∧
    ptrEq m (addrOfObj b) NULL = some false ∧
    ptrEq m NULL (addrOfObj b) = some false := by
  simp [ptrEq, castToPtr, NULL, addrOfObj, Mem.valid, hb]

/-- C4, witness: an `int *` and the 4-byte object in block 3. -/
theorem null_compare_witness :
    ptrEq [(3, 4)] (castToPtr (.int true .int) NULL) NULL = some true ∧
    ptrEq [(3, 4)] (addrOfObj 3) NULL = some false ∧
    ptrEq [(3, 4)] NULL (addrOfObj 3) = some false :=
  null_compare (.int true .int) [(3, 4)] 3 4 (by decide)

/-- C5, counterexample: on LP64 the largest array `size_t` can size has
`2 ^ 64 - 1` one-byte elements, and `ptrdiff_t` cannot represent `N - 1`. -/
theorem ptrdiff_t_too_narrow_lp64 :
    lp64.WF ∧ maxArrayLen lp64 = 18446744073709551615 ∧
    maxOf lp64 ptrdiff_t = 9223372036854775807 ∧
    ¬ representable lp64 ptrdiff_t ((maxArrayLen lp64 : Int) - 1) := by
  decide

/-- C5, amended: on every target and for every array of `N ≥ 1` elements,
`ptrdiff_t` represents both `+(N-1)` and `-(N-1)` if and only if
`N ≤ 2 ^ (w - 1)`, where `w` is the width of `long` in bits; and on every target
that meets the minimum widths of C it cannot represent `N-1` for the largest
array `size_t` can size, `N = 2 ^ w - 1`. -/
theorem ptrdiff_t_range (t : Target) (N : Nat) (h1 : 1 ≤ N) :
    ((representable t ptrdiff_t ((N : Int) - 1) ∧ representable t ptrdiff_t (-((N : Int) - 1))) ↔
      N ≤ 2 ^ (bitWidth t ptrdiff_t - 1)) ∧
    (t.WF → ¬ representable t ptrdiff_t ((maxArrayLen t : Int) - 1)) := by
  have h1' : (1 : Int) ≤ N := by exact_mod_cast h1
  have hs : isSigned ptrdiff_t = true := rfl
  refine ⟨⟨?_, ?_⟩, ?_⟩
  · intro h
    have hmax := h.1.2
    simp only [maxOf, hs, if_true] at hmax
    have hle : (N : Int) ≤ 2 ^ (bitWidth t ptrdiff_t - 1) := by omega
    exact_mod_cast hle
  · intro h2
    have h2' : (N : Int) ≤ 2 ^ (bitWidth t ptrdiff_t - 1) := by exact_mod_cast h2
    simp only [representable, minOf, maxOf, hs, if_true]
    refine ⟨⟨?_, ?_⟩, ⟨?_, ?_⟩⟩ <;> omega
  · intro hwf hrep
    have h32 : 32 ≤ bitWidth t ptrdiff_t := hwf.2.2.2.1
    have hw : bitWidth t size_t = bitWidth t ptrdiff_t := rfl
    obtain ⟨k, hk⟩ : ∃ k, bitWidth t ptrdiff_t = k + 1 := ⟨bitWidth t ptrdiff_t - 1, by omega⟩
    have hk1 : 1 ≤ k := by omega
    have h2k : 2 ^ 1 ≤ 2 ^ k := Nat.pow_le_pow_right (by norm_num) hk1
    have hpow : 2 ^ (k + 1) = 2 * 2 ^ k := by rw [pow_succ, Nat.mul_comm]
    have hmax := hrep.2
    simp only [maxOf, hs, if_true, maxArrayLen, hw, hk, Nat.add_sub_cancel] at hmax
    have hnat : 2 ^ (k + 1) - 1 ≤ 2 ^ k := by
      have : ((2 ^ (k + 1) - 1 : Nat) : Int) ≤ ((2 ^ k : Nat) : Int) := by
        push_cast
        omega
      exact_mod_cast this
    omega

/-- C5, witness: arrays of `2 ^ 63` and of `2 ^ 63 + 1` elements on LP64. -/
theorem ptrdiff_t_range_witness :
    representable lp64 ptrdiff_t ((9223372036854775808 : Nat) - 1 : Int) ∧
    representable lp64 ptrdiff_t (-(((9223372036854775808 : Nat) : Int) - 1)) ∧
    ¬ (9223372036854775809 ≤ 2 ^ (bitWidth lp64 ptrdiff_t - 1)) ∧
    ¬ representable lp64 ptrdiff_t ((maxArrayLen lp64 : Int) - 1) :=
  have h := ptrdiff_t_range lp64 9223372036854775808 (by decide)
  ⟨(h.1.2 (by decide)).1, (h.1.2 (by decide)).2, by decide, h.2 (by decide)⟩

/-- C6: on every target `ptrdiff_t` is a signed integer type, `size_t` is an
unsigned integer type, and the two have the same size. -/
theorem ptrdiff_t_size_t_same_width (t : Target) :
    isSigned ptrdiff_t = true ∧ isUnsigned size_t = true ∧
    sizeof t ptrdiff_t = sizeof t size_t ∧ bitWidth t ptrdiff_t = bitWidth t size_t ∧
    minOf t ptrdiff_t < 0 ∧ minOf t size_t = 0 := by
  refine ⟨rfl, rfl, rfl, rfl, ?_, rfl⟩
  have hs : isSigned ptrdiff_t = true := rfl
  have hpos : (0 : Int) < 2 ^ (bitWidth t ptrdiff_t - 1) := by positivity
  simp only [minOf, hs, if_true]
  omega

/-- C9, counterexample: on a target with 16-bit `int` whose extended character
set is Unicode, the code value 0x10FFFF is not representable in `wchar_t`. -/
theorem wchar_t_too_narrow_ip16 :
    ip16.WF ∧ 1114111 ≤ ip16.extCharMax ∧ maxOf ip16 wchar_t = 32767 ∧
    ¬ representable ip16 wchar_t 1114111 := by
  decide

/-- C9, amended: the header declares `wchar_t` as `int`, a signed integer type;
on every target it holds exactly the code values up to `INT_MAX`, so it holds
every value of the target's extended character set if and only if the largest
code value of that set is at most `INT_MAX`. -/
theorem wchar_t_holds (t : Target) :
    isSigned wchar_t = true ∧ sizeof t wchar_t = t.intBytes ∧
    (∀ c : Nat, representable t wchar_t c ↔ (c : Int) ≤ 2 ^ (t.charBit * t.intBytes - 1) - 1) ∧
    ((∀ c : Nat, c ≤ t.extCharMax → representable t wchar_t c) ↔
      (t.extCharMax : Int) ≤ 2 ^ (t.charBit * t.intBytes - 1) - 1) := by
  have hs : isSigned wchar_t = true := rfl
  have hw : bitWidth t wchar_t = t.charBit * t.intBytes := rfl
  have hpos : (0 : Int) < 2 ^ (t.charBit * t.intBytes - 1) := by positivity
  have hrep : ∀ c : Nat, representable t wchar_t c ↔
      (c : Int) ≤ 2 ^ (t.charBit * t.intBytes - 1) - 1 := by
    intro c
    simp only [representable, minOf, maxOf, hs, if_true, hw]
    constructor
    · intro h
      exact h.2
    · intro h
      exact ⟨by have := Int.natCast_nonneg c; omega, h⟩
  refine ⟨rfl, rfl, hrep, ?_⟩
  constructor
  · intro h
    exact (hrep _).1 (h t.extCharMax le_rfl)
  · intro h c hc
    refine (hrep c).2 ?_
    have : (c : Int) ≤ t.extCharMax := by exact_mod_cast hc
    omega

theorem resolve_field_cons (t : Target) (T : CType) (f : String) (rest : Designator) (o : Nat)
    (fty : CType) (h : resolve t [.field f] T = some (o, fty)) :
    resolve t (.field f :: rest) T = (resolve t rest fty).map (fun r => (o + r.1, r.2)) := by
  cases T with
  | struct fs =>
    cases hff : findField t fs f 0 with
    | none => simp [resolve, hff] at h
    | some pr =>
      obtain ⟨o', ty'⟩ := pr
      simp only [resolve, hff, Option.map_some', Nat.add_zero, Option.some.injEq,
        Prod.mk.injEq] at h
      obtain ⟨rfl, rfl⟩ := h
      simp [resolve, hff]
  | void => simp [resolve] at h
  | int sg k => simp [resolve] at h
  | ptr u => simp [resolve] at h
  | array u n => simp [resolve] at h

/-- C10, counterexample: on LLP64, where `size_t` is 32 bits wide, member `c`
of `struct { char pad[4294967295]; struct { char x; char d; } c; }` has
`offsetof` 4294967295 and member `d` of the inner structure has `offsetof` 1,
while `offsetof` of `c.d` is 0 and not 4294967296; and in
`struct { char pad[4294967295]; char m[2]; }` the in-range element `m[1]` has
`offsetof` 0 and not 4294967295 + 1 * 1. -/
theorem offsetof_sum_wraps_llp64 :
    llp64.WF ∧
    offsetof llp64 bigOuter [.field "c"] = some 4294967295 ∧
    offsetof llp64 innerPair [.field "d"] = some 1 ∧
    offsetof llp64 bigOuter [.field "c", .field "d"] = some 0 ∧
    offsetof llp64 bigOuter [.field "c", .field "d"] ≠ some (4294967295 + 1) ∧
    offsetof llp64 bigArr [.field "m"] = some 4294967295 ∧
    sizeof llp64 (.int true .char) = 1 ∧
    offsetof llp64 bigArr [.field "m", .index 1] = some 0 ∧
    offsetof llp64 bigArr [.field "m", .index 1] ≠ some (4294967295 + 1 * 1) := by
  refine ⟨by decide, by decide, by decide, by decide, by decide, by decide, by decide,
    by decide, by decide⟩

/-- C10, amended: `offsetof` composes along member designators in `size_t`
arithmetic.  For a member `c` of structure type and a member `d` of that
structure, `offsetof(T, c.d)` is `offsetof(T, c) + offsetof(C, d)` reduced
modulo `2 ^ width(size_t)`; for a member `m` of array type with elements of
size `s`, `offsetof(T, m[i])` is `offsetof(T, m) + i * s` reduced likewise.  The
plain equations hold whenever the sum on the right is below `2 ^ width(size_t)`,
which is the case whenever the designated member lies fewer than that many bytes
from the start of `T`.  `offsetof(T, m)` is always the offset of `m[0]`. -/
theorem offsetof_compose (t : Target) (T : CType) (c : String) (fs : Fields) (oc : Nat)
    (d : String) (od : Nat) (dty : CType) (T' : CType) (m : String) (e : CType) (n om : Nat)
    (i : Nat)
    (hc : resolve t [.field c] T = some (oc, .struct fs))
    (hd : resolve t [.field d] (.struct fs) = some (od, dty))
    (hm : resolve t [.field m] T' = some (om, .array e n)) :
    (∃ a b, offsetof t T [.field c] = some a ∧ offsetof t (.struct fs) [.field d] = some b ∧
      offsetof t T [.field c, .field d] = some ((a + b) % 2 ^ bitWidth t size_t) ∧
      (a + b < 2 ^ bitWidth t size_t → offsetof t T [.field c, .field d] = some (a + b)) ∧
      (oc + od < 2 ^ bitWidth t size_t → a + b < 2 ^ bitWidth t size_t)) ∧
    (∃ a, offsetof t T' [.field m] = some a ∧
      offsetof t T' [.field m, .index i] = some ((a + i * sizeof t e) % 2 ^ bitWidth t size_t) ∧
      (a + i * sizeof t e < 2 ^ bitWidth t size_t →
        offsetof t T' [.field m, .index i] = some (a + i * sizeof t e)) ∧
      (om + i * sizeof t e < 2 ^ bitWidth t size_t →
        a + i * sizeof t e < 2 ^ bitWidth t size_t) ∧
      offsetof t T' [.field m, .index 0] = some a) := by
  have hcd : resolve t [.field c, .field d] T = some (oc + od, dty) := by
    rw [resolve_field_cons t T c [.field d] oc (.struct fs) hc, hd]
    rfl
  have hmi : ∀ k, resolve t [.field m, .index k] T' = some (om + k * sizeof t e, e) := by
    intro k
    rw [resolve_field_cons t T' m [.index k] om (.array e n) hm]
    simp [resolve]
  have hcdv : offsetof t T [.field c, .field d] =
      some ((oc % 2 ^ bitWidth t size_t + od % 2 ^ bitWidth t size_t) % 2 ^ bitWidth t size_t) := by
    rw [offsetof_of_resolve t T c [.field d] _ hcd, Nat.add_mod]
  have hmiv : offsetof t T' [.field m, .index i] =
      some ((om % 2 ^ bitWidth t size_t + i * sizeof t e) % 2 ^ bitWidth t size_t) := by
    rw [offsetof_of_resolve t T' m [.index i] _ (hmi i)]
    simp [Nat.add_mod]
  have hoc := Nat.mod_le oc (2 ^ bitWidth t size_t)
  have hod := Nat.mod_le od (2 ^ bitWidth t size_t)
  have hom := Nat.mod_le om (2 ^ bitWidth t size_t)
  refine ⟨⟨oc % 2 ^ bitWidth t size_t, od % 2 ^ bitWidth t size_t, ?_, ?_, hcdv, ?_, ?_⟩,
    ⟨om % 2 ^ bitWidth t size_t, ?_, hmiv, ?_, ?_, ?_⟩⟩
  · rw [offsetof_of_resolve t T c [] _ hc]
  · rw [offsetof_of_resolve t _ d [] _ hd]
  · intro hlt
    rw [hcdv, Nat.mod_eq_of_lt hlt]
  · intro hlt
    omega
  · rw [offsetof_of_resolve t T' m [] _ hm]
  · intro hlt
    rw [hmiv, Nat.mod_eq_of_lt hlt]
  · intro hlt
    omega
  · rw [offsetof_of_resolve t T' m [.index 0] _ (hmi 0)]
    simp

/-- C10, witness: `struct { int n; struct { char x; char d; } c; long m[4]; }`
on LP64, with `c.d` at 4 + 1 and `m[3]` at 8 + 3 * 8. -/
theorem offsetof_compose_witness :
    offsetof lp64 outerRec [.field "c"] = some 4 ∧
    offsetof lp64 innerPair [.field "d"] = some 1 ∧
    offsetof lp64 outerRec [.field "m"] = some 8 ∧
    sizeof lp64 (.int true .long) = 8 ∧
    ((∃ a b, offsetof lp64 outerRec [.field "c"] = some a ∧
      offsetof lp64 innerPair [.field "d"] = some b ∧
      offsetof lp64 outerRec [.field "c", .field "d"] = some ((a + b) % 2 ^ 64) ∧
      (a + b < 2 ^ 64 → offsetof lp64 outerRec [.field "c", .field "d"] = some (a + b)) ∧
      (4 + 1 < 2 ^ 64 → a + b < 2 ^ 64)) ∧
    (∃ a, offsetof lp64 outerRec [.field "m"] = some a ∧
      offsetof lp64 outerRec [.field "m", .index 3] = some ((a + 3 * 8) % 2 ^ 64) ∧
      (a + 3 * 8 < 2 ^ 64 → offsetof lp64 outerRec [.field "m", .index 3] = some (a + 3 * 8)) ∧
      (8 + 3 * 8 < 2 ^ 64 → a + 3 * 8 < 2 ^ 64) ∧
      offsetof lp64 outerRec [.field "m", .index 0] = some a)) :=
  ⟨by decide, by decide, by decide, by decide,
   offsetof_compose lp64 outerRec "c"
    (.cons "x" (.int true .char) (.cons "d" (.int true .char) .nil)) 4 "d" 1 (.int true .char)
    outerRec "m" (.int true .long) 4 8 3 (by decide) (by decide) (by decide)⟩

/-! ## Translation level: the guard and redefinitions -/

theorem lookup_define (k name : String) (d : Defn) (s : TU) :
    lookup k (define name d s).defs = if name = k then some d else lookup k s.defs := by
  unfold define
  cases h : lookup name s.defs with
  | none => simp [lookup]
  | some d' =>
    by_cases hd : d' = d
    · subst hd
      by_cases hk : name = k
      · subst hk
        simp [h]
      · simp [hk]
    · simp [hd, lookup]

theorem define_decls (name : String) (d : Defn) (s : TU) : (define name d s).decls = s.decls := by
  unfold define
  cases h : lookup name s.defs with
  | none => rfl
  | some d' => by_cases hd : d' = d <;> simp [hd]

theorem define_out (name : String) (d : Defn) (s : TU) : (define name d s).out = s.out := by
  unfold define
  cases h : lookup name s.defs with
  | none => rfl
  | some d' => by_cases hd : d' = d <;> simp [hd]

theorem define_diags (name : String) (d : Defn) (s : TU) :
    (define name d s).diags =
      s.diags ++ (if defConflict name d s then [Diag.redefined name] else []) := by
  unfold define defConflict
  cases h : lookup name s.defs with
  | none => simp
  | some d' => by_cases hd : d' = d <;> simp [hd]

theorem declareTypedef_defs (name : String) (ty : CType) (s : TU) :
    (declareTypedef name ty s).defs = s.defs := by
  unfold declareTypedef
  cases h : lookup name s.decls with
  | none => rfl
  | some d' => by_cases hd : d' = .typedef ty <;> simp [hd]

theorem declareTypedef_out (name : String) (ty : CType) (s : TU) :
    (declareTypedef name ty s).out = s.out := by
  unfold declareTypedef
  cases h : lookup name s.decls with
  | none => rfl
  | some d' => by_cases hd : d' = .typedef ty <;> simp [hd]

theorem declareTypedef_diags (name : String) (ty : CType) (s : TU) :
    (declareTypedef name ty s).diags =
      s.diags ++ (if declConflict name ty s then [Diag.redeclared name] else []) := by
  unfold declareTypedef declConflict
  cases h : lookup name s.decls with
  | none => simp
  | some d' => by_cases hd : d' = .typedef ty <;> simp [hd]

theorem lookup_declareTypedef (k name : String) (ty : CType) (s : TU) :
    lookup k (declareTypedef name ty s).decls =
      if name = k ∧ lookup name s.decls = none then some (.typedef ty) else lookup k s.decls := by
  unfold declareTypedef
  cases h : lookup name s.decls with
  | none => simp [lookup]
  | some d' => by_cases hd : d' = .typedef ty <;> simp [hd]

theorem expandTok_of_unbound (ds : List (String × Defn)) (fuel : Nat) (hide : List String)
    (tok : String) (h : lookup tok ds = none) : expandTok ds fuel hide tok = [tok] := by
  cases fuel with
  | zero => rfl
  | succ k =>
    by_cases hh : tok ∈ hide
    · simp [expandTok, hh]
    · simp [expandTok, hh, h]

theorem expand_of_unbound (ds : List (String × Defn)) (toks : List String)
    (h : ∀ tok ∈ toks, lookup tok ds = none) : expand ds toks = toks := by
  unfold expand
  induction toks with
  | nil => rfl
  | cons a rest ih =>
    have ha := expandTok_of_unbound ds (ds.length + 1) [] a (h a (by simp))
    have hr := ih (fun tok ht => h tok (by simp [ht]))
    simp only [List.map_cons, List.flatten_cons, ha, hr]
    rfl

theorem processText_defs (toks : List String) (s : TU) : (processText toks s).defs = s.defs := by
  unfold processText
  split
  · rw [declareTypedef_defs]
  · rfl

theorem processText_out (toks : List String) (s : TU) :
    (processText toks s).out = s.out ++ [expand s.defs toks] := by
  unfold processText
  split
  · rw [declareTypedef_out]
  · rfl

theorem includeStddef_eq (s : TU) :
    includeStddef s =
      if isDefined _STDDEF_H s then s
      else
        processText ["typedef", "int", "wchar_t", ";"]
          (processText ["typedef", "unsigned", "long", "size_t", ";"]
            (processText ["typedef", "long", "ptrdiff_t", ";"]
              (define "offsetof" hdrOffsetof
                (define "NULL" hdrNull (define _STDDEF_H ⟨none, []⟩ s))))) := by
  simp only [includeStddef, stddef_h, processLines, hdrNull, hdrOffsetof]

theorem includeStddef_of_defined (s : TU) (h : isDefined _STDDEF_H s = true) :
    includeStddef s = s := by
  rw [includeStddef_eq, if_pos h]

theorem includeStddef_defs (s : TU) (h : isDefined _STDDEF_H s = false) :
    (includeStddef s).defs =
      (define "offsetof" hdrOffsetof
        (define "NULL" hdrNull (define _STDDEF_H ⟨none, []⟩ s))).defs := by
  rw [includeStddef_eq]
  simp only [h, Bool.false_eq_true, if_false, processText_defs]

theorem isDefined_includeStddef (s : TU) : isDefined _STDDEF_H (includeStddef s) = true := by
  cases h : isDefined _STDDEF_H s with
  | true => rw [includeStddef_of_defined s h]; exact h
  | false =>
    unfold isDefined
    rw [includeStddef_defs s h]
    simp [lookup_define, _STDDEF_H]

theorem includeStddef_idem (s : TU) : includeStddef (includeStddef s) = includeStddef s :=
  includeStddef_of_defined _ (isDefined_includeStddef s)

theorem includeN_of_fixed (n : Nat) (s : TU) (h : includeStddef s = s) : includeN n s = s := by
  induction n with
  | zero => rfl
  | succ k ih => rw [includeN, h, ih]

theorem includeN_succ (n : Nat) (s : TU) : includeN (n + 1) s = includeStddef s := by
  rw [includeN, includeN_of_fixed n _ (includeStddef_idem s)]

theorem includeStddef_out (s : TU) (h : isDefined _STDDEF_H s = false) :
    (includeStddef s).out = s.out ++ declLines.map (expand (includeStddef s).defs) := by
  rw [includeStddef_defs s h, includeStddef_eq]
  simp only [h, Bool.false_eq_true, if_false, processText_out, processText_defs, define_out,
    declLines, List.map_cons, List.map_nil, List.append_assoc, List.cons_append, List.nil_append]

theorem defConflict_congr (name : String) (d : Defn) (s s' : TU)
    (h : lookup name s'.defs = lookup name s.defs) :
    defConflict name d s' = defConflict name d s := by
  unfold defConflict
  rw [h]

theorem declConflict_congr (name : String) (ty : CType) (s s' : TU)
    (h : lookup name s'.decls = lookup name s.decls) :
    declConflict name ty s' = declConflict name ty s := by
  unfold declConflict
  rw [h]

theorem processText_of_plain (toks : List String) (name : String) (ty : CType) (s : TU)
    (hx : ∀ tok ∈ toks, lookup tok s.defs = none) (hp : parseTypedef toks = some (name, ty)) :
    processText toks s = declareTypedef name ty { s with out := s.out ++ [toks] } := by
  unfold processText
  rw [expand_of_unbound s.defs toks hx, hp]

theorem processText_diags_plain (toks : List String) (name : String) (ty : CType) (s : TU)
    (hx : ∀ tok ∈ toks, lookup tok s.defs = none) (hp : parseTypedef toks = some (name, ty)) :
    (processText toks s).diags =
      s.diags ++ (if declConflict name ty s then [Diag.redeclared name] else []) := by
  rw [processText_of_plain toks name ty s hx hp, declareTypedef_diags]
  rfl

theorem lookup_processText_plain (k : String) (toks : List String) (name : String) (ty : CType)
    (s : TU) (hx : ∀ tok ∈ toks, lookup tok s.defs = none)
    (hp : parseTypedef toks = some (name, ty)) :
    lookup k (processText toks s).decls =
      if name = k ∧ lookup name s.decls = none then some (.typedef ty) else lookup k s.decls := by
  rw [processText_of_plain toks name ty s hx hp, lookup_declareTypedef]

theorem defs_plain_after_defines (s : TU) (hp : plain s) :
    ∀ tok ∈ declTokens,
      lookup tok (define "offsetof" hdrOffsetof
        (define "NULL" hdrNull (define _STDDEF_H ⟨none, []⟩ s))).defs = none := by
  intro tok ht
  have h1 : "offsetof" ∉ declTokens := by decide
  have h2 : "NULL" ∉ declTokens := by decide
  have h3 : _STDDEF_H ∉ declTokens := by decide
  have e1 : ¬ "offsetof" = tok := fun e => h1 (e ▸ ht)
  have e2 : ¬ "NULL" = tok := fun e => h2 (e ▸ ht)
  have e3 : ¬ _STDDEF_H = tok := fun e => h3 (e ▸ ht)
  rw [lookup_define, lookup_define, lookup_define, if_neg e1, if_neg e2, if_neg e3]
  exact hp tok ht

theorem declConflict_false_lookup (name : String) (ty : CType) (s : TU)
    (h : declConflict name ty s = false) :
    (if lookup name s.decls = none then some (Decl.typedef ty)
      else lookup name s.decls) = some (.typedef ty) := by
  unfold declConflict at h
  cases hl : lookup name s.decls with
  | none => simp
  | some d =>
    rw [hl] at h
    simp at h
    simp [h]

theorem includeStddef_diags (s : TU) (h : isDefined _STDDEF_H s = false) (hp : plain s) :
    (includeStddef s).diags = s.diags ++ conflictDiags s := by
  have hd := defs_plain_after_defines s hp
  have sub1 : ∀ tok ∈ ["typedef", "long", "ptrdiff_t", ";"], tok ∈ declTokens := by decide
  have sub2 : ∀ tok ∈ ["typedef", "unsigned", "long", "size_t", ";"], tok ∈ declTokens := by
    decide
  have sub3 : ∀ tok ∈ ["typedef", "int", "wchar_t", ";"], tok ∈ declTokens := by decide
  have p1 : parseTypedef ["typedef", "long", "ptrdiff_t", ";"] = some ("ptrdiff_t", ptrdiff_t) := by
    decide
  have p2 : parseTypedef ["typedef", "unsigned", "long", "size_t", ";"] = some ("size_t", size_t) := by
    decide
  have p3 : parseTypedef ["typedef", "int", "wchar_t", ";"] = some ("wchar_t", wchar_t) := by
    decide
  have hg : lookup _STDDEF_H s.defs = none := by
    unfold isDefined at h
    cases hl : lookup _STDDEF_H s.defs with
    | none => rfl
    | some d => simp [hl] at h
  have cg : defConflict _STDDEF_H ⟨none, []⟩ s = false := by
    unfold defConflict
    rw [hg]
  have cn : defConflict "NULL" hdrNull (define _STDDEF_H ⟨none, []⟩ s) =
      defConflict "NULL" hdrNull s := by
    apply defConflict_congr
    rw [lookup_define, if_neg (by decide)]
  have co : defConflict "offsetof" hdrOffsetof
      (define "NULL" hdrNull (define _STDDEF_H ⟨none, []⟩ s)) =
      defConflict "offsetof" hdrOffsetof s := by
    apply defConflict_congr
    rw [lookup_define, lookup_define, if_neg (by decide), if_neg (by decide)]
  rw [includeStddef_eq]
  simp only [h, Bool.false_eq_true, if_false]
  rw [processText_diags_plain _ _ _ _ (fun tok ht => by
        rw [processText_defs, processText_defs]; exact hd tok (sub3 tok ht)) p3,
    processText_diags_plain _ _ _ _ (fun tok ht => by
        rw [processText_defs]; exact hd tok (sub2 tok ht)) p2,
    processText_diags_plain _ _ _ _ (fun tok ht => hd tok (sub1 tok ht)) p1,
    define_diags, define_diags, define_diags, cg, cn, co]
  have d1 : declConflict "ptrdiff_t" ptrdiff_t
      (define "offsetof" hdrOffsetof (define "NULL" hdrNull (define _STDDEF_H ⟨none, []⟩ s))) =
      declConflict "ptrdiff_t" ptrdiff_t s := by
    apply declConflict_congr
    rw [define_decls, define_decls, define_decls]
  have d2 : declConflict "size_t" size_t
      (processText ["typedef", "long", "ptrdiff_t", ";"]
        (define "offsetof" hdrOffsetof
          (define "NULL" hdrNull (define _STDDEF_H ⟨none, []⟩ s)))) =
      declConflict "size_t" size_t s := by
    apply declConflict_congr
    rw [lookup_processText_plain _ _ _ _ _ (fun tok ht => hd tok (sub1 tok ht)) p1,
      if_neg (fun e => absurd e.1 (by decide)), define_decls, define_decls, define_decls]
  have d3 : declConflict "wchar_t" wchar_t
      (processText ["typedef", "unsigned", "long", "size_t", ";"]
        (processText ["typedef", "long", "ptrdiff_t", ";"]
          (define "offsetof" hdrOffsetof
            (define "NULL" hdrNull (define _STDDEF_H ⟨none, []⟩ s))))) =
      declConflict "wchar_t" wchar_t s := by
    apply declConflict_congr
    rw [lookup_processText_plain _ _ _ _ _ (fun tok ht => by
          rw [processText_defs]; exact hd tok (sub2 tok ht)) p2,
      if_neg (fun e => absurd e.1 (by decide)),
      lookup_processText_plain _ _ _ _ _ (fun tok ht => hd tok (sub1 tok ht)) p1,
      if_neg (fun e => absurd e.1 (by decide)), define_decls, define_decls, define_decls]
  rw [d1, d2, d3]
  simp [conflictDiags]

theorem includeStddef_decls (s : TU) (h : isDefined _STDDEF_H s = false) (hp : plain s) :
    lookup "ptrdiff_t" (includeStddef s).decls =
      (if lookup "ptrdiff_t" s.decls = none then some (.typedef ptrdiff_t)
        else lookup "ptrdiff_t" s.decls) ∧
    lookup "size_t" (includeStddef s).decls =
      (if lookup "size_t" s.decls = none then some (.typedef size_t)
        else lookup "size_t" s.decls) ∧
    lookup "wchar_t" (includeStddef s).decls =
      (if lookup "wchar_t" s.decls = none then some (.typedef wchar_t)
        else lookup "wchar_t" s.decls) := by
  have hd := defs_plain_after_defines s hp
  have sub1 : ∀ tok ∈ ["typedef", "long", "ptrdiff_t", ";"], tok ∈ declTokens := by decide
  have sub2 : ∀ tok ∈ ["typedef", "unsigned", "long", "size_t", ";"], tok ∈ declTokens := by
    decide
  have sub3 : ∀ tok ∈ ["typedef", "int", "wchar_t", ";"], tok ∈ declTokens := by decide
  have p1 : parseTypedef ["typedef", "long", "ptrdiff_t", ";"] = some ("ptrdiff_t", ptrdiff_t) := by
    decide
  have p2 : parseTypedef ["typedef", "unsigned", "long", "size_t", ";"] = some ("size_t", size_t) := by
    decide
  have p3 : parseTypedef ["typedef", "int", "wchar_t", ";"] = some ("wchar_t", wchar_t) := by
    decide
  have l1 : ∀ k, lookup k (processText ["typedef", "long", "ptrdiff_t", ";"]
      (define "offsetof" hdrOffsetof
        (define "NULL" hdrNull (define _STDDEF_H ⟨none, []⟩ s)))).decls =
      if "ptrdiff_t" = k ∧ lookup "ptrdiff_t" s.decls = none then some (.typedef ptrdiff_t)
      else lookup k s.decls := by
    intro k
    rw [lookup_processText_plain _ _ _ _ _ (fun tok ht => hd tok (sub1 tok ht)) p1,
      define_decls, define_decls, define_decls]
  have l2 : ∀ k, lookup k (processText ["typedef", "unsigned", "long", "size_t", ";"]
      (processText ["typedef", "long", "ptrdiff_t", ";"]
        (define "offsetof" hdrOffsetof
          (define "NULL" hdrNull (define _STDDEF_H ⟨none, []⟩ s))))).decls =
      if "size_t" = k ∧ lookup "size_t" s.decls = none then some (.typedef size_t)
      else if "ptrdiff_t" = k ∧ lookup "ptrdiff_t" s.decls = none then some (.typedef ptrdiff_t)
      else lookup k s.decls := by
    intro k
    rw [lookup_processText_plain _ _ _ _ _ (fun tok ht => by
          rw [processText_defs]; exact hd tok (sub2 tok ht)) p2, l1, l1,
      if_neg (fun e : "ptrdiff_t" = "size_t" ∧ _ => absurd e.1 (by decide))]
  have l3 : ∀ k, lookup k (includeStddef s).decls =
      if "wchar_t" = k ∧ lookup "wchar_t" s.decls = none then some (.typedef wchar_t)
      else if "size_t" = k ∧ lookup "size_t" s.decls = none then some (.typedef size_t)
      else if "ptrdiff_t" = k ∧ lookup "ptrdiff_t" s.decls = none then some (.typedef ptrdiff_t)
      else lookup k s.decls := by
    intro k
    rw [includeStddef_eq]
    simp only [h, Bool.false_eq_true, if_false]
    rw [lookup_processText_plain _ _ _ _ _ (fun tok ht => by
          rw [processText_defs, processText_defs]; exact hd tok (sub3 tok ht)) p3, l2, l2,
      if_neg (fun e : "size_t" = "wchar_t" ∧ _ => absurd e.1 (by decide)),
      if_neg (fun e : "ptrdiff_t" = "wchar_t" ∧ _ => absurd e.1 (by decide))]
  have n1 : ¬ "wchar_t" = "ptrdiff_t" := by decide
  have n2 : ¬ "size_t" = "ptrdiff_t" := by decide
  have n3 : ¬ "wchar_t" = "size_t" := by decide
  refine ⟨?_, ?_, ?_⟩
  · rw [l3]
    simp [n1, n2]
  · rw [l3]
    simp [n3]
  · rw [l3]
    simp

theorem bindings_includeStddef (t : Target) (s : TU) (h : isDefined _STDDEF_H s = false)
    (hp : plain s) (hc : (includeStddef s).diags = s.diags) :
    bindings t (includeStddef s) = headerBindings t := by
  rw [includeStddef_diags s h hp] at hc
  have hnil : conflictDiags s = [] := by simpa using hc
  have c1 : declConflict "ptrdiff_t" ptrdiff_t s = false := by
    cases hx : declConflict "ptrdiff_t" ptrdiff_t s with
    | false => rfl
    | true => simp [conflictDiags, hx] at hnil
  have c2 : declConflict "size_t" size_t s = false := by
    cases hx : declConflict "size_t" size_t s with
    | false => rfl
    | true => simp [conflictDiags, hx] at hnil
  have c3 : declConflict "wchar_t" wchar_t s = false := by
    cases hx : declConflict "wchar_t" wchar_t s with
    | false => rfl
    | true => simp [conflictDiags, hx] at hnil
  obtain ⟨e1, e2, e3⟩ := includeStddef_decls s h hp
  rw [declConflict_false_lookup _ _ _ c1] at e1
  rw [declConflict_false_lookup _ _ _ c2] at e2
  rw [declConflict_false_lookup _ _ _ c3] at e3
  have m1 : lookup "NULL" (includeStddef s).defs = some hdrNull := by
    rw [includeStddef_defs s h, lookup_define, lookup_define, if_neg (by decide), if_pos rfl]
  have m2 : lookup "offsetof" (includeStddef s).defs = some hdrOffsetof := by
    rw [includeStddef_defs s h, lookup_define, if_pos rfl]
  simp only [bindings, headerBindings, widthOf, e1, e2, e3, m1, m2]

theorem header_declares :
    lookup "ptrdiff_t" (includeStddef TU.empty).decls = some (.typedef ptrdiff_t) ∧
    lookup "size_t" (includeStddef TU.empty).decls = some (.typedef size_t) ∧
    lookup "wchar_t" (includeStddef TU.empty).decls = some (.typedef wchar_t) ∧
    lookup "NULL" (includeStddef TU.empty).defs = some hdrNull ∧
    lookup "offsetof" (includeStddef TU.empty).defs = some hdrOffsetof := by
  decide

/-- C2, counterexample: in a translation unit where the guard name is already
defined and the body has never been emitted, processing the header three times
emits nothing and binds none of the header's names; and in a translation unit
that starts with `#define NULL 0`, processing the header raises a redefinition
diagnostic. -/
theorem guard_taken_emits_nothing :
    guardTaken.out = [] ∧ (includeN 3 guardTaken).out = [] ∧
    lookup "NULL" (includeN 3 guardTaken).defs = none ∧
    lookup "size_t" (includeN 3 guardTaken).decls = none ∧
    nullZero.diags = [] ∧ (includeN 3 nullZero).diags = [Diag.redefined "NULL"] := by
  decide

/-- C2, amended: for every state and every `n ≥ 1`, processing the header `n`
times leaves exactly the state (bindings, emitted lines, diagnostics) that
processing it once leaves.  The body is emitted once when `_STDDEF_H` was not
defined beforehand and not at all when it was. -/
theorem include_idempotent (s : TU) (n : Nat) (hn : 1 ≤ n) :
    includeN n s = includeStddef s ∧
    (isDefined _STDDEF_H s = false →
      (includeN n s).out = s.out ++ declLines.map (expand (includeN n s).defs)) ∧
    (isDefined _STDDEF_H s = true → includeN n s = s) := by
  obtain ⟨k, rfl⟩ : ∃ k, n = k + 1 := ⟨n - 1, by omega⟩
  rw [includeN_succ]
  exact ⟨rfl, includeStddef_out s, includeStddef_of_defined s⟩

/-- C2, witness: processing the header twice in an empty translation unit. -/
theorem include_idempotent_witness :
    includeN 2 TU.empty = includeStddef TU.empty ∧ (includeN 2 TU.empty).out = declLines ∧
    (includeN 2 TU.empty).diags = [] :=
  ⟨(include_idempotent TU.empty 2 (by decide)).1, by decide, by decide⟩

/-- C7, counterexample: on the same target, a translation unit in which the
guard name was already defined ends with none of the header's bindings, while
an empty translation unit ends with all of them. -/
theorem bindings_depend_on_prior_state :
    bindings lp64 (includeStddef TU.empty) =
      (some hdrNull, some hdrOffsetof, some 64, some 64, some 32) ∧
    bindings lp64 (includeStddef guardTaken) = (none, none, none, none, none) ∧
    bindings lp64 (includeStddef TU.empty) ≠ bindings lp64 (includeStddef guardTaken) := by
  refine ⟨by decide, by decide, by decide⟩

/-- C7, amended: for any two translation units compiled for the same target in
which, before the inclusion, `_STDDEF_H` is not defined and no token of the
header's declaration lines is bound by `#define`, and in which the inclusion
raises no diagnostic, the resulting type widths and the definitions of `NULL`
and `offsetof` are identical, and are those the header describes for the
target. -/
theorem bindings_determined (t : Target) (s1 s2 : TU)
    (h1 : isDefined _STDDEF_H s1 = false) (h2 : isDefined _STDDEF_H s2 = false)
    (p1 : plain s1) (p2 : plain s2)
    (c1 : (includeStddef s1).diags = s1.diags) (c2 : (includeStddef s2).diags = s2.diags) :
    bindings t (includeStddef s1) = bindings t (includeStddef s2) ∧
    bindings t (includeStddef s1) = headerBindings t := by
  rw [bindings_includeStddef t s1 h1 p1 c1, bindings_includeStddef t s2 h2 p2 c2]
  exact ⟨rfl, rfl⟩

/-- C7, witness: an empty translation unit and one that starts with
`typedef int NULL;`, on ILP32. -/
theorem bindings_determined_witness :
    bindings ilp32 (includeStddef TU.empty) = bindings ilp32 (includeStddef typedefNull) ∧
    bindings ilp32 (includeStddef TU.empty) = headerBindings ilp32 :=
  bindings_determined ilp32 TU.empty typedefNull (by decide) (by decide) (by decide) (by decide)
    (by decide) (by decide)

/-- C8, counterexample: with `_STDDEF_H` not defined, a translation unit that
binds `NULL` by `typedef int NULL;`, and one that binds `size_t` by
`#define size_t x`, both process the header without any diagnostic. -/
theorem incompatible_binding_without_diagnostic :
    isDefined _STDDEF_H typedefNull = false ∧
    lookup "NULL" typedefNull.decls = some (.typedef (.int true .int)) ∧
    (includeStddef typedefNull).diags = [] ∧
    isDefined _STDDEF_H sizeRenamed = false ∧
    lookup "size_t" sizeRenamed.defs = some ⟨none, ["x"]⟩ ∧
    (includeStddef sizeRenamed).diags = [] ∧
    lookup "size_t" (includeStddef sizeRenamed).decls = none ∧
    lookup "x" (includeStddef sizeRenamed).decls = some (.typedef size_t) := by
  decide

/-- C8, amended: in a translation unit where no token of the header's
declaration lines is bound by `#define`, processing the header raises a
diagnostic if and only if `_STDDEF_H` is not yet defined and the unit already
defines `NULL` or `offsetof` differently from the header, or already declares
`ptrdiff_t`, `size_t` or `wchar_t` as anything but a `typedef` of the header's
type; the diagnostics raised are exactly the redefinition diagnostics for those
names. -/
theorem redefinition_iff (s : TU) (hp : plain s) :
    (includeStddef s).diags =
      s.diags ++ (if isDefined _STDDEF_H s then [] else conflictDiags s) ∧
    ((includeStddef s).diags ≠ s.diags ↔
      isDefined _STDDEF_H s = false ∧
        (defConflict "NULL" hdrNull s = true ∨ defConflict "offsetof" hdrOffsetof s = true ∨
         declConflict "ptrdiff_t" ptrdiff_t s = true ∨ declConflict "size_t" size_t s = true ∨
         declConflict "wchar_t" wchar_t s = true)) := by
  cases h : isDefined _STDDEF_H s with
  | true =>
    rw [includeStddef_of_defined s h]
    simp
  | false =>
    rw [includeStddef_diags s h hp]
    refine ⟨by simp, ?_⟩
    simp only [ne_eq, List.append_right_eq_self, true_and]
    unfold conflictDiags
    cases defConflict "NULL" hdrNull s <;> cases defConflict "offsetof" hdrOffsetof s <;>
      cases declConflict "ptrdiff_t" ptrdiff_t s <;> cases declConflict "size_t" size_t s <;>
      cases declConflict "wchar_t" wchar_t s <;> simp

/-- C8, witness: a translation unit that starts with `#define NULL 0`. -/
theorem redefinition_iff_witness :
    plain nullZero ∧ (includeStddef nullZero).diags = [Diag.redefined "NULL"] ∧
    (includeStddef nullZero).diags ≠ nullZero.diags :=
  ⟨by decide, by decide,
   (redefinition_iff nullZero (by decide)).2.2 ⟨by decide, Or.inl (by decide)⟩⟩

end Stddef
